import Mathlib

/-!
# Verification of the medgemma-girder-plugin core

Shallow embedding of the core logic of the repository:

* `src/dicom_processor.py` — slice selection (`extract_key_slices`) and pixel
  normalization (`dicom_to_image`).  Pixel intensities are modelled as exact
  rationals (the Python code uses `numpy.float32`; the normalization steps it
  performs — subtract the attained minimum, divide by the attained maximum,
  multiply by 255 — are exact at the extremal pixels, so the idealization is
  faithful for the stated bounds).
* `src/girder_plugin.py` — the job orchestrator endpoints
  (`trigger_zip_pipeline`, `analyze_item`) and the status reconciler endpoints
  (`get_zip_job_status`, `get_item_pipeline_status`).  External effects
  (the Airflow HTTP calls of `src/airflow_integration.py`, the Girder
  database lookups) are modelled as explicit inputs: an `Except` value for
  each remote query, and the persisted item metadata record threaded in and
  out of each operation.  Each operation additionally reports whether (and
  with which identifiers) it issued the external trigger call.
-/

namespace MedGemma

/-! ## dicom_processor.py : DICOMProcessor -/

/-- Python `range(0, stop, step)` for `step ≥ 1`: the multiples of `step`
below `stop`.  (For `step = 0` Nat division makes this `[]`, which matches
the empty Python `range` for the negative step arising from `num_slices = 0`.) -/
def range_step (stop step : Nat) : List Nat :=
  (List.range ((stop + step - 1) / step)).map (fun k => k * step)

/-- One iteration of the index-collection loop in `extract_key_slices`:
`if i not in indices and len(indices) < self.num_slices: indices.append(i)`. -/
def add_index (num_slices : Nat) (acc : List Nat) (i : Nat) : List Nat :=
  if i ∉ acc ∧ acc.length < num_slices then acc ++ [i] else acc

/-- The `indices` list built by `extract_key_slices` when
`total > num_slices`: start with the middle index `total // 2`, then walk
`range(0, total, step)` with `step = total // (num_slices - 1)`. -/
def select_indices (num_slices total : Nat) : List Nat :=
  (range_step total (total / (num_slices - 1))).foldl (add_index num_slices) [total / 2]

/-- `DICOMProcessor.extract_key_slices`.  Returns `Except.error ()` exactly
where the Python code raises: when `total > num_slices = 1`, the statement
`step = total // (self.num_slices - 1)` divides by zero. -/
def extract_key_slices {α : Type} (num_slices : Nat) (files : List α) :
    Except Unit (List α) :=
  if files.length ≤ num_slices then .ok files
  else if num_slices = 1 then .error ()
  else .ok ((List.insertionSort (· ≤ ·) (select_indices num_slices files.length)).filterMap
    (fun i => files[i]?))

/-- Minimum of a list (numpy `.min()`); 0 on the empty list, which the Python
code never reaches (numpy raises there). -/
def arr_min {α : Type} [LinearOrder α] [Zero α] (l : List α) : α :=
  match l with
  | [] => 0
  | x :: xs => xs.foldl min x

/-- Maximum of a list (numpy `.max()`); 0 on the empty list. -/
def arr_max {α : Type} [LinearOrder α] [Zero α] (l : List α) : α :=
  match l with
  | [] => 0
  | x :: xs => xs.foldl max x

/-- A DICOM slice as consumed by `dicom_to_image`: the pixel grid plus the
`RescaleSlope` / `RescaleIntercept` attributes (defaults 1.0 / 0.0). -/
structure Slice where
  pixels : List (List ℚ)
  slope : ℚ := 1
  intercept : ℚ := 0
deriving DecidableEq, Repr

/-- `pixel_array * slope + intercept`. -/
def rescaled_grid (s : Slice) : List (List ℚ) :=
  s.pixels.map (fun row => row.map (fun v => v * s.slope + s.intercept))

/-- `pixel_array - pixel_array.min()`. -/
def shifted_grid (s : Slice) : List (List ℚ) :=
  (rescaled_grid s).map (fun row => row.map (fun v => v - arr_min (rescaled_grid s).flatten))

/-- `pixel_array.max()` after the min-shift. -/
def max_after_shift (s : Slice) : ℚ :=
  arr_max (shifted_grid s).flatten

/-- `DICOMProcessor.dicom_to_image`: affine rescale, min-shift, scale by
`255 / max` when `max > 0`, then `astype(np.uint8)` (truncation toward zero;
the values here are nonnegative, so this is `Rat.floor`, and they are
at most 255, so no wrap-around occurs). -/
def dicom_to_image (s : Slice) : List (List Nat) :=
  (if 0 < max_after_shift s then
      (shifted_grid s).map (fun row => row.map (fun v => v / max_after_shift s * 255))
    else shifted_grid s).map
    (fun row => row.map (fun v => (Rat.floor v).toNat))

/-! ## girder_plugin.py / airflow_integration.py : orchestrator and reconciler

The Airflow REST calls (`AirflowClient.trigger_dag`,
`AirflowClient.get_dag_run_status`, `AirflowClient.get_dag_run_tasks`) raise
`RuntimeError` on any `requests` failure and otherwise return the decoded
JSON body.  Each is modelled as an `Except String _` input (the remote
oracle).  The Girder `Item().setMetadata` call merges the given keys into the
existing `meta` dict of the item; the metadata record is modelled as a structure and the
merge as a structure update. -/

/-- The JSON body of an Airflow DAG-run response; every field the plugin
reads via `.get(...)` is optional. -/
structure DagRunResp where
  dag_run_id : Option String := none
  state : Option String := none
  logical_date : Option String := none
  start_date : Option String := none
  end_date : Option String := none
deriving DecidableEq, Repr

/-- The persisted item metadata keys the plugin reads and writes
(`meta.airflow_dag_id`, `meta.airflow_job_id`, `meta.analysis_status`,
`meta.job_started`, `meta.triggered_by`, `meta.triggered_at`,
`meta.processed_dicom_ready`).  `none` stands for an absent key. -/
structure ItemMeta where
  airflow_dag_id : Option String := none
  airflow_job_id : Option String := none
  analysis_status : Option String := none
  job_started : Option String := none
  triggered_by : Option String := none
  triggered_at : Option String := none
  processed_dicom_ready : Bool := false
deriving DecidableEq, Repr

/-- One Girder file record as read by the endpoints (`name`, `created`,
`_id`). -/
structure FileInfo where
  name : String
  created : String
  fid : String
deriving DecidableEq, Repr

/-- A record of one call to `AirflowClient.trigger_dag`: the DAG id, the
`dag_run_id` passed, and the `job_id` placed in the configuration payload.
(The further configuration fields — Girder url/token, paths — are opaque
to every claim and not recorded.) -/
structure TriggerCall where
  dag_id : String
  dag_run_id : String
  job_id : String
deriving DecidableEq, Repr

/-- Python `str.endswith`, modelled on the character list of the string
(core `String.endsWith` is byte-position based and does not reduce in the
kernel). -/
def str_endswith (s suffix : String) : Bool :=
  suffix.data.isSuffixOf s.data

/-- Python `str.lower`, modelled on the character list. -/
def str_lower (s : String) : String :=
  ⟨s.data.map Char.toLower⟩

/-- Python `str.strip` (whitespace from both ends), modelled on the
character list. -/
def str_strip (s : String) : String :=
  ⟨((s.data.dropWhile Char.isWhitespace).reverse.dropWhile Char.isWhitespace).reverse⟩

/-- Python truthiness of an optional string (`None` and the empty string are falsy). -/
def truthy (a : Option String) : Bool :=
  match a with
  | some s => !(s == "")
  | none => false

/-- Python `a or b` where `a` is an optional string and `b` a string. -/
def py_or (a : Option String) (b : String) : String :=
  match a with
  | some s => if s = "" then b else s
  | none => b

/-- Python `a or b` on two optional strings. -/
def py_or_opt (a b : Option String) : Option String :=
  match a with
  | some s => if s = "" then b else some s
  | none => b

/-- `pathlib.PurePath.stem` for a bare file name: drop the final extension
when the last dot is neither leading nor trailing. -/
def path_stem (name : String) : String :=
  let cs := name.toList
  let dots := (List.range cs.length).filter (fun i => cs.get? i = some '.')
  match dots.getLast? with
  | some i => if 0 < i ∧ i + 1 < cs.length then String.mk (cs.take i) else name
  | none => name

/-- `MedGemmaResource._default_output_item_name`. -/
def default_output_item_name (processed_item_name source_file_name : String) : String :=
  let stem := str_strip (path_stem source_file_name)
  if stem = "" then processed_item_name else stem ++ "_triage"

/-- `MedGemmaResource._latest_zip_file`: the most recently created file whose
lowercased name ends in `.zip`. -/
def latest_zip_file (files : List FileInfo) : Option FileInfo :=
  let zip_files := files.filter (fun f => str_endswith (str_lower f.name) ".zip")
  match zip_files with
  | [] => none
  | _ => (List.insertionSort (fun a b => b.created ≤ a.created) zip_files).head?

/-- `MedGemmaResource._set_trigger_metadata`: the keys merged into the item
metadata after a successful trigger call. -/
def set_trigger_metadata (meta : ItemMeta) (dag_id : String) (dag_run : DagRunResp)
    (login : Option String) (now : String) : ItemMeta :=
  { meta with
    airflow_dag_id := some dag_id,
    airflow_job_id := dag_run.dag_run_id,
    analysis_status := some (dag_run.state.getD "queued"),
    job_started := dag_run.logical_date,
    triggered_by := login,
    triggered_at := some now }

/-- Return value of `trigger_zip_pipeline` (the JSON bodies, keyed by shape;
informational text fields that no claim inspects are omitted). -/
inductive ZipResult where
  | noZipFile
  | noToken
  | inProgress (job_id : Option String) (dag_id : String)
  | alreadyProcessed (processed_item_id processed_item_name : String)
  | started (dag_id : String) (job_id : Option String)
      (item_id folder_id file_id file_name output_item_name : String)
  | failed (reason : String)
deriving DecidableEq, Repr

/-- `MedGemmaResource.trigger_zip_pipeline`.  Inputs beyond the request
parameters: the item (`item_id`, `folder_id`, metadata `meta`, child
`files`), the request token, the result of the `_already_processed_item`
database lookup (the id of the found item), the freshly generated uuid `job_id`,
the current user and time, and the trigger-call oracle.  Returns the
response body, the item metadata after the call, and the trigger call
issued (if any). -/
def trigger_zip_pipeline (zip_dag_id processed_item_name : String)
    (item_id folder_id : String) (meta : ItemMeta) (files : List FileInfo)
    (folder_id_param item_name_param girder_token : Option String)
    (existing_processed : Option String)
    (job_id : String) (login : Option String) (now : String)
    (trigger : Except String DagRunResp) :
    ZipResult × ItemMeta × Option TriggerCall :=
  match latest_zip_file files with
  | none => (.noZipFile, meta, none)
  | some zip_file =>
    if !truthy girder_token then (.noToken, meta, none)
    else if meta.analysis_status = some "queued" ∨ meta.analysis_status = some "running" then
      (.inProgress meta.airflow_job_id (meta.airflow_dag_id.getD zip_dag_id), meta, none)
    else
      let target_folder_id := py_or folder_id_param folder_id
      let target_item_name :=
        py_or item_name_param (default_output_item_name processed_item_name zip_file.name)
      if existing_processed.isSome ∨ meta.processed_dicom_ready then
        (.alreadyProcessed (existing_processed.getD "") target_item_name, meta, none)
      else
        let dag_run_id := "manual__girder_" ++ job_id
        match trigger with
        | .ok dag_run =>
          (.started zip_dag_id dag_run.dag_run_id item_id target_folder_id
              zip_file.fid zip_file.name target_item_name,
            set_trigger_metadata meta zip_dag_id dag_run login now,
            some ⟨zip_dag_id, dag_run_id, job_id⟩)
        | .error e =>
          (.failed ("Failed to trigger ZIP pipeline: " ++ e), meta,
            some ⟨zip_dag_id, dag_run_id, job_id⟩)

/-- Return value of `analyze_item`. -/
inductive AnalyzeResult where
  | noFiles
  | noHfToken
  | started (dag_id : String) (job_id : Option String) (item_id : String)
  | failed (reason : String)
deriving DecidableEq, Repr

/-- `MedGemmaResource.analyze_item`.  The loop over the files of the item
keeps the *last* `.zip` file and collects the `.dcm` files; there is no check
of the persisted `analysis_status` or `processed_dicom_ready` anywhere
on the path to the trigger call. -/
def analyze_item (analysis_dag_id item_id : String) (meta : ItemMeta)
    (files : List FileInfo) (hf_token_param env_hf : Option String)
    (job_id : String) (login : Option String) (now : String)
    (trigger : Except String DagRunResp) :
    AnalyzeResult × ItemMeta × Option TriggerCall :=
  let zip_file := (files.filter (fun f => str_endswith f.name ".zip")).getLast?
  let dicom_files := files.filter (fun f => str_endswith f.name ".dcm")
  if zip_file.isNone ∧ dicom_files.isEmpty then (.noFiles, meta, none)
  else
    let hf_token := py_or_opt hf_token_param env_hf
    if !truthy hf_token then (.noHfToken, meta, none)
    else
      let dag_run_id := "manual__analysis_" ++ job_id
      match trigger with
      | .ok dag_run =>
        (.started analysis_dag_id dag_run.dag_run_id item_id,
          set_trigger_metadata meta analysis_dag_id dag_run login now,
          some ⟨analysis_dag_id, dag_run_id, job_id⟩)
      | .error e =>
        (.failed ("Failed to trigger pipeline: " ++ e), meta,
          some ⟨analysis_dag_id, dag_run_id, job_id⟩)

/-- The `progress` dict of `get_zip_job_status`. -/
structure Progress where
  percent : Nat
  done_tasks : Nat
  total_tasks : Nat
deriving DecidableEq, Repr

/-- The `done_states` set of the source: success, failed, skipped,
upstream_failed. -/
def done_states : List String :=
  ["success", "failed", "skipped", "upstream_failed"]

/-- The generator-sum of the source counting task instances whose state is in
`done_states`; a task instance is represented by its optional `state` field. -/
def count_done (tasks : List (Option String)) : Nat :=
  (tasks.filter (fun t =>
    match t with
    | some s => done_states.contains s
    | none => false)).length

/-- Round the rational `a / b` (with `b > 0`) to the nearest integer, ties
to even — IEEE-754 rounding of an exact quotient onto an integer grid. -/
def rneDiv (a b : Nat) : Nat :=
  let q := a / b
  let r := a % b
  if 2 * r < b then q
  else if b < 2 * r then q + 1
  else if q % 2 = 0 then q else q + 1

/-- Fuel-driven search for the least `s` with `b ≤ a * 2 ^ s`. -/
def leastShiftAux (a b : Nat) : Nat → Nat
  | 0 => 0
  | fuel + 1 => if b ≤ a then 0 else leastShiftAux (2 * a) b fuel + 1

/-- The least `s` with `b ≤ a * 2 ^ s`; for `1 ≤ a ≤ b` this locates the
binade of the ratio: `2 ^ (-s) ≤ a / b < 2 ^ (1 - s)`.  (Fuel `b` suffices
because `b ≤ 2 ^ b`.) -/
def leastShift (a b : Nat) : Nat :=
  leastShiftAux a b b

/-- `int((done / total) * 100)` exactly as Python evaluates it in IEEE-754
float64, for `done ≤ total` and `0 < total`, modelled over the integers:
the true division yields the correctly rounded (nearest, ties-to-even)
53-bit quotient `m1 · 2 ^ (-(52 + s))` on the binade found by `leastShift`;
the product with 100 is rounded again onto its own binade
(`m1 · 100` has exponent `t - s` with `t ∈ {6, 7}`); `int` then truncates
toward zero.  Exponents are unbounded, so the model is exact for every
sub-task list the program can hold (float64 subnormals would require
`total ≥ 2 ^ 1022`).  Because of the two float roundings this truncation
can be one below the exact `⌊done · 100 / total⌋`, e.g.
`pyFloatPercent 29 50 = 57` while `⌊29 · 100 / 50⌋ = 58`, matching
`int((29 / 50) * 100) = 57` in Python. -/
def pyFloatPercent (done total : Nat) : Nat :=
  if done = 0 then 0
  else
    let s := leastShift done total
    let m1 := rneDiv (done * 2 ^ (52 + s)) total
    let t := if m1 * 100 < 2 ^ 59 then 6 else 7
    let m2 := rneDiv (m1 * 100) (2 ^ t)
    m2 / 2 ^ (52 + s - t)

/-- The progress computation of `get_zip_job_status`, including the inner
`try/except` soft-fail: on a task-query failure the progress stays
`{0, 0, 0}` except that `percent` is forced to 100 when the overall state is
`success`.  The percent is `int((done_tasks / total_tasks) * 100)` — float64
division, float64 product with 100, then truncation — modelled exactly by
`pyFloatPercent`. -/
def compute_progress (state : String) (tasks : Except Unit (List (Option String))) :
    Progress :=
  match tasks with
  | .error _ => ⟨if state = "success" then 100 else 0, 0, 0⟩
  | .ok ts =>
    let total := ts.length
    let done := count_done ts
    let pct := if total ≠ 0 then pyFloatPercent done total else 0
    ⟨if state = "success" then 100 else pct, done, total⟩

/-- Return value of `get_zip_job_status`. -/
inductive ZipStatusResult where
  | ok (job_id dag_id state : String) (start_date end_date dag_run_id : Option String)
      (progress : Progress)
  | err (msg : String)
deriving DecidableEq, Repr

/-- `MedGemmaResource.get_zip_job_status`: fetch the DAG-run state, compute
progress, and — when a source item with `meta.airflow_job_id = job_id`
exists — merge `analysis_status := state` (plus
`processed_dicom_ready := true` when the state is `success`) into its
metadata.  On a status-query failure the whole call returns an error body
and the item is untouched. -/
def get_zip_job_status (zip_dag_id job_id : String)
    (status : Except String DagRunResp)
    (tasks : Except Unit (List (Option String)))
    (source_item : Option ItemMeta) :
    ZipStatusResult × Option ItemMeta :=
  match status with
  | .error e => (.err ("Failed to get ZIP job status: " ++ e), source_item)
  | .ok resp =>
    let state := resp.state.getD "unknown"
    let progress := compute_progress state tasks
    let updated := source_item.map (fun m =>
      { m with
        analysis_status := some state,
        processed_dicom_ready :=
          if state = "success" then true else m.processed_dicom_ready })
    (.ok job_id zip_dag_id state resp.start_date resp.end_date resp.dag_run_id progress,
      updated)

/-- Return value of `get_item_pipeline_status`. -/
inductive ItemStatusResult where
  | noRun (item_id status : String)
  | ok (item_id job_id dag_id status : String) (start_date end_date : Option String)
  | degraded (item_id job_id dag_id status error_msg : String)
deriving DecidableEq, Repr

/-- `MedGemmaResource.get_item_pipeline_status`: when the item carries no
(truthy) `airflow_dag_id`/`airflow_job_id`, answer from the persisted
metadata with no external call; otherwise fetch the run state and merge
`analysis_status := state` into the item metadata; on a query failure
return the last persisted status with an error note and leave the item
untouched. -/
def get_item_pipeline_status (item_id : String) (meta : ItemMeta)
    (status : Except String DagRunResp) :
    ItemStatusResult × ItemMeta :=
  if !truthy meta.airflow_dag_id ∨ !truthy meta.airflow_job_id then
    (.noRun item_id (meta.analysis_status.getD "not_started"), meta)
  else
    match status with
    | .ok resp =>
      let state := resp.state.getD "unknown"
      (.ok item_id (meta.airflow_job_id.getD "") (meta.airflow_dag_id.getD "") state
          resp.start_date resp.end_date,
        { meta with analysis_status := some state })
    | .error e =>
      (.degraded item_id (meta.airflow_job_id.getD "") (meta.airflow_dag_id.getD "")
          (meta.analysis_status.getD "unknown") ("Status refresh failed: " ++ e),
        meta)

/-- Modelled from the spec (§4.6, §8): the percent the claim states,
`round(completed/total*100)` — nearest integer, halves away from zero. -/
def spec_percent_round (done total : Nat) : Nat :=
  (done * 100 * 2 + total) / (2 * total)

/-- The spec-side count of terminal sub-tasks, written independently of
`count_done`. -/
def spec_terminal_count (tasks : List (Option String)) : Nat :=
  (tasks.filter (fun t =>
    decide (t = some "success" ∨ t = some "failed" ∨ t = some "skipped" ∨
      t = some "upstream_failed"))).length

/-! ## Helper lemmas -/

section MinMax

variable {α : Type} [LinearOrder α]

theorem foldl_min_le_acc (xs : List α) (a : α) : xs.foldl min a ≤ a := by
  induction xs generalizing a with
  | nil => exact le_refl a
  | cons x xs ih => exact le_trans (ih (min a x)) (min_le_left a x)

theorem foldl_min_le_mem (xs : List α) (a : α) {y : α} (hy : y ∈ xs) :
    xs.foldl min a ≤ y := by
  induction xs generalizing a with
  | nil => cases hy
  | cons x xs ih =>
    rcases List.mem_cons.mp hy with rfl | h
    · exact le_trans (foldl_min_le_acc xs (min a y)) (min_le_right a y)
    · exact ih (min a x) h

theorem foldl_min_mem (xs : List α) (a : α) :
    xs.foldl min a = a ∨ xs.foldl min a ∈ xs := by
  induction xs generalizing a with
  | nil => exact Or.inl rfl
  | cons x xs ih =>
    rcases ih (min a x) with h | h
    · rcases min_choice a x with h2 | h2
      · exact Or.inl (by rw [List.foldl_cons, h, h2])
      · exact Or.inr (by rw [List.foldl_cons, h, h2]; exact List.mem_cons_self x xs)
    · exact Or.inr (List.mem_cons_of_mem x h)

theorem acc_le_foldl_max (xs : List α) (a : α) : a ≤ xs.foldl max a := by
  induction xs generalizing a with
  | nil => exact le_refl a
  | cons x xs ih => exact le_trans (le_max_left a x) (ih (max a x))

theorem mem_le_foldl_max (xs : List α) (a : α) {y : α} (hy : y ∈ xs) :
    y ≤ xs.foldl max a := by
  induction xs generalizing a with
  | nil => cases hy
  | cons x xs ih =>
    rcases List.mem_cons.mp hy with rfl | h
    · exact le_trans (le_max_right a y) (acc_le_foldl_max xs (max a y))
    · exact ih (max a x) h

theorem foldl_max_mem (xs : List α) (a : α) :
    xs.foldl max a = a ∨ xs.foldl max a ∈ xs := by
  induction xs generalizing a with
  | nil => exact Or.inl rfl
  | cons x xs ih =>
    rcases ih (max a x) with h | h
    · rcases max_choice a x with h2 | h2
      · exact Or.inl (by rw [List.foldl_cons, h, h2])
      · exact Or.inr (by rw [List.foldl_cons, h, h2]; exact List.mem_cons_self x xs)
    · exact Or.inr (List.mem_cons_of_mem x h)

variable [Zero α]

theorem arr_min_le {l : List α} {y : α} (hy : y ∈ l) : arr_min l ≤ y := by
  cases l with
  | nil => cases hy
  | cons x xs =>
    rcases List.mem_cons.mp hy with rfl | h
    · exact foldl_min_le_acc xs y
    · exact foldl_min_le_mem xs x h

theorem le_arr_max {l : List α} {y : α} (hy : y ∈ l) : y ≤ arr_max l := by
  cases l with
  | nil => cases hy
  | cons x xs =>
    rcases List.mem_cons.mp hy with rfl | h
    · exact acc_le_foldl_max xs y
    · exact mem_le_foldl_max xs x h

theorem arr_min_mem {l : List α} (h : l ≠ []) : arr_min l ∈ l := by
  cases l with
  | nil => exact absurd rfl h
  | cons x xs =>
    show xs.foldl min x ∈ x :: xs
    rcases foldl_min_mem xs x with h2 | h2
    · rw [h2]; exact List.mem_cons_self x xs
    · exact List.mem_cons_of_mem x h2

theorem arr_max_mem {l : List α} (h : l ≠ []) : arr_max l ∈ l := by
  cases l with
  | nil => exact absurd rfl h
  | cons x xs =>
    show xs.foldl max x ∈ x :: xs
    rcases foldl_max_mem xs x with h2 | h2
    · rw [h2]; exact List.mem_cons_self x xs
    · exact List.mem_cons_of_mem x h2

end MinMax

theorem range_step_lt (stop step : Nat) (hs : 0 < step) :
    ∀ x ∈ range_step stop step, x < stop := by
  intro x hx
  rcases List.mem_map.mp hx with ⟨k, hk, rfl⟩
  have hk2 : k + 1 ≤ (stop + step - 1) / step := List.mem_range.mp hk
  have h3 := (Nat.le_div_iff_mul_le hs).mp hk2
  rw [Nat.succ_mul] at h3
  omega

theorem add_index_nodup (num_slices : Nat) (acc : List Nat) (i : Nat)
    (h : acc.Nodup) : (add_index num_slices acc i).Nodup := by
  unfold add_index
  split_ifs with hc
  · simp only [List.nodup_append, List.nodup_cons, List.not_mem_nil, not_false_iff,
      List.nodup_nil, and_true, true_and, List.disjoint_singleton]
    exact ⟨h, hc.1⟩
  · exact h

theorem add_index_length (num_slices : Nat) (acc : List Nat) (i : Nat) :
    (add_index num_slices acc i).length ≤ max acc.length num_slices := by
  unfold add_index
  split_ifs with hc
  · simp only [List.length_append, List.length_singleton]
    omega
  · exact Nat.le_max_left _ _

theorem foldl_add_index_nodup (num_slices : Nat) (l acc : List Nat)
    (h : acc.Nodup) : (l.foldl (add_index num_slices) acc).Nodup := by
  induction l generalizing acc with
  | nil => exact h
  | cons i l ih => exact ih _ (add_index_nodup num_slices acc i h)

theorem foldl_add_index_length (num_slices : Nat) (l acc : List Nat) :
    (l.foldl (add_index num_slices) acc).length ≤ max acc.length num_slices := by
  induction l generalizing acc with
  | nil => exact Nat.le_max_left _ _
  | cons i l ih =>
    have h1 := ih (add_index num_slices acc i)
    have h2 := add_index_length num_slices acc i
    rw [List.foldl_cons]
    omega

theorem add_index_mem_lt (num_slices t : Nat) (acc : List Nat) (i : Nat)
    (ha : ∀ x ∈ acc, x < t) (hi : i < t) :
    ∀ x ∈ add_index num_slices acc i, x < t := by
  intro x hx
  unfold add_index at hx
  split_ifs at hx with hc
  · rcases List.mem_append.mp hx with h | h
    · exact ha x h
    · rw [List.mem_singleton.mp h]; exact hi
  · exact ha x hx

theorem foldl_add_index_mem_lt (num_slices t : Nat) (l acc : List Nat)
    (ha : ∀ x ∈ acc, x < t) (hl : ∀ x ∈ l, x < t) :
    ∀ x ∈ l.foldl (add_index num_slices) acc, x < t := by
  induction l generalizing acc with
  | nil => exact ha
  | cons i l ih =>
    exact ih _ (add_index_mem_lt num_slices t acc i ha (hl i (List.mem_cons_self i l)))
      (fun x hx => hl x (List.mem_cons_of_mem i hx))

theorem select_indices_nodup (num_slices total : Nat) :
    (select_indices num_slices total).Nodup :=
  foldl_add_index_nodup num_slices _ _ (List.nodup_singleton _)

theorem select_indices_length (num_slices total : Nat) (hN : 1 ≤ num_slices) :
    (select_indices num_slices total).length ≤ num_slices := by
  have h := foldl_add_index_length num_slices
    (range_step total (total / (num_slices - 1))) [total / 2]
  unfold select_indices
  simp only [List.length_singleton] at h
  omega

theorem select_indices_lt (num_slices total : Nat) (h2 : 2 ≤ num_slices)
    (hT : num_slices < total) :
    ∀ x ∈ select_indices num_slices total, x < total := by
  apply foldl_add_index_mem_lt
  · intro x hx
    rw [List.mem_singleton.mp hx]
    exact Nat.div_lt_self (by omega) (by omega)
  · exact range_step_lt total _ (Nat.div_pos (by omega) (by omega))

theorem filterMap_getElem_length {α : Type} (l : List Nat) (files : List α)
    (h : ∀ i ∈ l, i < files.length) :
    (l.filterMap (fun i => files[i]?)).length = l.length := by
  induction l with
  | nil => rfl
  | cons i l ih =>
    have hi : i < files.length := h i (List.mem_cons_self i l)
    rw [List.filterMap_cons, List.getElem?_eq_getElem hi]
    simp only [List.length_cons]
    rw [ih (fun j hj => h j (List.mem_cons_of_mem i hj))]

theorem nodup_lt_length_le (l : List Nat) (t : Nat) (hn : l.Nodup)
    (h : ∀ x ∈ l, x < t) : l.length ≤ t := by
  have h1 : l.toFinset ⊆ Finset.range t := by
    intro x hx
    exact Finset.mem_range.mpr (h x (List.mem_toFinset.mp hx))
  have h2 := Finset.card_le_card h1
  rwa [List.toFinset_card_of_nodup hn, Finset.card_range] at h2

theorem map_length_map_map {α β : Type} (f : α → β) (g : List (List α)) :
    (g.map (fun row => row.map f)).map List.length = g.map List.length := by
  induction g with
  | nil => rfl
  | cons r rs ih => simp only [List.map_cons, List.length_map, ih]

theorem rat_floor_le_self (q : ℚ) : (Rat.floor q : ℚ) ≤ q :=
  Rat.le_floor.mp (le_refl _)

theorem rat_floor_mono {a b : ℚ} (h : a ≤ b) : Rat.floor a ≤ Rat.floor b :=
  Rat.le_floor.mpr (le_trans (rat_floor_le_self a) h)

theorem rat_floor_255 : Rat.floor (255 : ℚ) = 255 := by decide

theorem rat_floor_zero : Rat.floor (0 : ℚ) = 0 := by decide

theorem shifted_flatten (s : Slice) :
    (shifted_grid s).flatten =
      (rescaled_grid s).flatten.map
        (fun v => v - arr_min (rescaled_grid s).flatten) := by
  unfold shifted_grid
  exact (List.map_flatten _ _).symm

theorem max_after_shift_eq (s : Slice) :
    max_after_shift s =
      arr_max ((rescaled_grid s).flatten.map
        (fun v => v - arr_min (rescaled_grid s).flatten)) := by
  unfold max_after_shift
  rw [shifted_flatten]

theorem dicom_flatten (s : Slice) :
    (dicom_to_image s).flatten =
      (if 0 < max_after_shift s then
          ((rescaled_grid s).flatten.map
            (fun v => v - arr_min (rescaled_grid s).flatten)).map
            (fun v => v / max_after_shift s * 255)
        else
          (rescaled_grid s).flatten.map
            (fun v => v - arr_min (rescaled_grid s).flatten)).map
        (fun v => (Rat.floor v).toNat) := by
  unfold dicom_to_image
  rw [← List.map_flatten]
  by_cases hmx : 0 < max_after_shift s
  · rw [if_pos hmx, if_pos hmx, ← List.map_flatten, shifted_flatten]
  · rw [if_neg hmx, if_neg hmx, shifted_flatten]

/-! ## Claim theorems -/

/-- **C9** (code bug, failing input): for target count `N = 1` and a series of
2 slices, `extract_key_slices` does not return the midpoint slice — the
stride computation `step = total // (self.num_slices - 1)` divides by zero
and the call raises `ZeroDivisionError`. -/
theorem extract_key_slices_one_of_two_raises :
    extract_key_slices 1 ([10, 20] : List Nat) = .error () := rfl

/-- **C5** (code bug, failing input): for `N = 1` and a series of length
`L = 3 > N`, the claim says the selected index set contains
`floor(3/2) = 1`; instead `extract_key_slices` raises `ZeroDivisionError`
(stride division by `N - 1 = 0`) and selects nothing. -/
theorem extract_key_slices_one_of_three_raises :
    extract_key_slices 1 ([10, 20, 30] : List Nat) = .error () := rfl

/-- **C2** (counterexample): for `N = 5` and a series of length `L = 12`, the
selector returns 4 slices (indices 0, 3, 6, 9), not `min(12, 5) = 5` — the
stride walk under-fills.  This refutes the claim
`|SelectedSet| = min(L, N)`. -/
theorem extract_key_slices_underfill :
    extract_key_slices 5 (List.range 12) = .ok [0, 3, 6, 9] ∧
      ([0, 3, 6, 9] : List Nat).length ≠ min (List.range 12).length 5 :=
  ⟨rfl, by decide⟩

/-- **C2** (amended): for every target count `N ≥ 1` and series of length
`L`, whenever the selector returns at all it returns *at most*
`min(L, N)` slices, and exactly `min(L, N) = L` of them (the whole series)
when `L ≤ N`. -/
theorem extract_key_slices_size {α : Type} (num_slices : Nat) (files : List α)
    (res : List α) (hN : 1 ≤ num_slices)
    (h : extract_key_slices num_slices files = .ok res) :
    res.length ≤ min files.length num_slices ∧
      (files.length ≤ num_slices → res = files) := by
  unfold extract_key_slices at h
  split_ifs at h with h1 h2
  · injection h with h
    subst h
    exact ⟨by rw [Nat.min_eq_left h1], fun _ => rfl⟩
  · injection h with h
    subst h
    refine ⟨?_, fun hle => absurd hle h1⟩
    have hN2 : 2 ≤ num_slices := by omega
    have hperm := List.perm_insertionSort (· ≤ ·) (select_indices num_slices files.length)
    have hlt : ∀ x ∈ List.insertionSort (· ≤ ·) (select_indices num_slices files.length),
        x < files.length := by
      intro x hx
      exact select_indices_lt _ _ hN2 (by omega) x (hperm.mem_iff.mp hx)
    rw [filterMap_getElem_length _ _ hlt]
    refine le_min ?_ ?_
    · exact nodup_lt_length_le _ _ (hperm.nodup_iff.mpr (select_indices_nodup _ _)) hlt
    · rw [hperm.length_eq]
      exact select_indices_length _ _ hN

/-- **C2** (witness): at `N = 3` over a 7-slice series the amended bound
holds concretely. -/
theorem extract_key_slices_size_witness :
    (1 : Nat) ≤ 3 ∧
      (([0, 3, 6] : List Nat).length ≤ min (List.range 7).length 3 ∧
        ((List.range 7).length ≤ 3 → [0, 3, 6] = List.range 7)) :=
  ⟨by decide, extract_key_slices_size 3 (List.range 7) [0, 3, 6] (by decide) rfl⟩

/-- **C3**: for every slice, `dicom_to_image` preserves the grid dimensions;
every output value lies in `[0, 255]` (the output type is `Nat`, so `0 ≤ v`
is inherent); when the rescaled grid is constant (`max_after_shift = 0`) the
output is the all-zero grid with no division performed; and when the
rescaled grid is non-constant the output attains both 0 and 255. -/
theorem dicom_to_image_normalizes (s : Slice) :
    ((dicom_to_image s).map List.length = s.pixels.map List.length) ∧
      (∀ v ∈ (dicom_to_image s).flatten, v ≤ 255) ∧
      (max_after_shift s = 0 → ∀ v ∈ (dicom_to_image s).flatten, v = 0) ∧
      ((∃ a ∈ (rescaled_grid s).flatten, ∃ b ∈ (rescaled_grid s).flatten, a ≠ b) →
        0 ∈ (dicom_to_image s).flatten ∧ 255 ∈ (dicom_to_image s).flatten) := by
  refine ⟨?_, ?_, ?_, ?_⟩
  · unfold dicom_to_image shifted_grid rescaled_grid
    by_cases hmx : 0 < max_after_shift s
    · rw [if_pos hmx]
      simp only [map_length_map_map]
    · rw [if_neg hmx]
      simp only [map_length_map_map]
  · intro v hv
    rw [dicom_flatten] at hv
    rcases List.mem_map.mp hv with ⟨q, hq, rfl⟩
    have hq255 : q ≤ 255 := by
      by_cases hmx : 0 < max_after_shift s
      · rw [if_pos hmx] at hq
        rcases List.mem_map.mp hq with ⟨w, hw, rfl⟩
        have hwle : w ≤ max_after_shift s := by
          rw [max_after_shift_eq]
          exact le_arr_max hw
        have h1 : w / max_after_shift s ≤ 1 := (div_le_one hmx).mpr hwle
        calc w / max_after_shift s * 255 ≤ 1 * 255 :=
              mul_le_mul_of_nonneg_right h1 (by norm_num)
          _ = 255 := one_mul 255
      · rw [if_neg hmx] at hq
        have h1 : q ≤ max_after_shift s := by
          rw [max_after_shift_eq]
          exact le_arr_max hq
        have h0 : max_after_shift s ≤ 0 := le_of_not_lt hmx
        linarith
    have h2 : Rat.floor q ≤ (255 : ℤ) := by
      have h3 := rat_floor_mono hq255
      rwa [rat_floor_255] at h3
    exact Int.toNat_le.mpr h2
  · intro hmx0 v hv
    rw [dicom_flatten, if_neg (by rw [hmx0]; exact lt_irrefl 0)] at hv
    rcases List.mem_map.mp hv with ⟨w, hw, rfl⟩
    rcases List.mem_map.mp hw with ⟨x, hx, rfl⟩
    have h1 : arr_min (rescaled_grid s).flatten ≤ x := arr_min_le hx
    have h2 : x - arr_min (rescaled_grid s).flatten ≤ max_after_shift s := by
      rw [max_after_shift_eq]
      exact le_arr_max (List.mem_map_of_mem _ hx)
    have h3 : x - arr_min (rescaled_grid s).flatten = 0 := by
      rw [hmx0] at h2
      linarith
    rw [h3, rat_floor_zero]
    rfl
  · rintro ⟨a, ha, b, hb, hab⟩
    have hne : (rescaled_grid s).flatten ≠ [] := List.ne_nil_of_mem ha
    have hmnA : arr_min (rescaled_grid s).flatten ∈ (rescaled_grid s).flatten :=
      arr_min_mem hne
    have hmx : 0 < max_after_shift s := by
      rw [max_after_shift_eq]
      rcases lt_or_gt_of_ne hab with h | h
      · calc (0 : ℚ) < b - arr_min (rescaled_grid s).flatten := by
              have h4 := arr_min_le ha
              linarith
          _ ≤ _ := le_arr_max (List.mem_map_of_mem
              (fun v => v - arr_min (rescaled_grid s).flatten) hb)
      · calc (0 : ℚ) < a - arr_min (rescaled_grid s).flatten := by
              have h4 := arr_min_le hb
              linarith
          _ ≤ _ := le_arr_max (List.mem_map_of_mem
              (fun v => v - arr_min (rescaled_grid s).flatten) ha)
    constructor
    · rw [dicom_flatten, if_pos hmx]
      have hm1 : (arr_min (rescaled_grid s).flatten - arr_min (rescaled_grid s).flatten : ℚ) ∈
          (rescaled_grid s).flatten.map
            (fun v => v - arr_min (rescaled_grid s).flatten) :=
        List.mem_map_of_mem _ hmnA
      have hm2 := List.mem_map_of_mem (fun v => v / max_after_shift s * 255) hm1
      simp only [sub_self, zero_div, zero_mul] at hm2
      have hm3 := List.mem_map_of_mem (fun v => (Rat.floor v).toNat) hm2
      simpa [rat_floor_zero] using hm3
    · rw [dicom_flatten, if_pos hmx]
      have hAm : (rescaled_grid s).flatten.map
          (fun v => v - arr_min (rescaled_grid s).flatten) ≠ [] := by
        cases hgrid : (rescaled_grid s).flatten with
        | nil => exact absurd hgrid hne
        | cons x xs => simp
      have hmax : max_after_shift s ∈ (rescaled_grid s).flatten.map
          (fun v => v - arr_min (rescaled_grid s).flatten) := by
        rw [max_after_shift_eq]
        exact arr_max_mem hAm
      have hm2 := List.mem_map_of_mem (fun v => v / max_after_shift s * 255) hmax
      simp only [div_self (ne_of_gt hmx), one_mul] at hm2
      have hm3 := List.mem_map_of_mem (fun v => (Rat.floor v).toNat) hm2
      simpa [rat_floor_255] using hm3

/-- **C3** (witness): the bounds at a concrete non-constant slice
(`pixels = [[0, 1], [2, 3]]`, slope 1, intercept 0): the output attains both
0 and 255, and a constant slice (`[[5, 5]]`) maps to the all-zero grid. -/
theorem dicom_to_image_normalizes_witness :
    (0 ∈ (dicom_to_image ⟨[[0, 1], [2, 3]], 1, 0⟩).flatten ∧
        255 ∈ (dicom_to_image ⟨[[0, 1], [2, 3]], 1, 0⟩).flatten) ∧
      (∀ v ∈ (dicom_to_image ⟨[[5, 5]], 1, 0⟩).flatten, v = 0) :=
  ⟨(dicom_to_image_normalizes ⟨[[0, 1], [2, 3]], 1, 0⟩).2.2.2
      ⟨0, by norm_num [rescaled_grid], 1, by norm_num [rescaled_grid], by norm_num⟩,
    (dicom_to_image_normalizes ⟨[[5, 5]], 1, 0⟩).2.2.1
      (by norm_num [max_after_shift, shifted_grid, rescaled_grid, arr_min, arr_max])⟩

/-- **C1** (counterexample): an item whose persisted `analysis_status` is
`queued` but which contains no ZIP file: `trigger_zip_pipeline` returns the
`No ZIP file found` error body, not the `AlreadyInProgress` result the claim
asserts for *every* item in the `queued`/`running` state. -/
theorem trigger_zip_queued_without_zip :
    (trigger_zip_pipeline "girder_zip_pipeline" "Processed Dicom" "item1" "folder1"
        { analysis_status := some "queued", airflow_job_id := some "job-1" } []
        none none (some "tok") none "uuid-1" (some "alice") "t0"
        (.error "unused")).1 = ZipResult.noZipFile ∧
      (trigger_zip_pipeline "girder_zip_pipeline" "Processed Dicom" "item1" "folder1"
          { analysis_status := some "queued", airflow_job_id := some "job-1" } []
          none none (some "tok") none "uuid-1" (some "alice") "t0"
          (.error "unused")).1 ≠
        ZipResult.inProgress (some "job-1") "girder_zip_pipeline" :=
  ⟨rfl, by decide⟩

/-- **C1** (amended): for every item that *contains a ZIP file* and request
carrying a Girder token, if the persisted `analysis_status` is `queued` or
`running` then `trigger_zip_pipeline` returns the in-progress body with the
existing `airflow_job_id`, issues no trigger call, and leaves the item
metadata unchanged. -/
theorem trigger_zip_in_progress_idempotent
    (zip_dag_id processed_item_name item_id folder_id : String) (meta : ItemMeta)
    (files : List FileInfo) (folder_id_param item_name_param girder_token : Option String)
    (existing_processed : Option String) (job_id : String) (login : Option String)
    (now : String) (trigger : Except String DagRunResp) (zf : FileInfo)
    (hzip : latest_zip_file files = some zf)
    (htok : truthy girder_token = true)
    (hst : meta.analysis_status = some "queued" ∨ meta.analysis_status = some "running") :
    trigger_zip_pipeline zip_dag_id processed_item_name item_id folder_id meta files
        folder_id_param item_name_param girder_token existing_processed job_id login now
        trigger =
      (ZipResult.inProgress meta.airflow_job_id (meta.airflow_dag_id.getD zip_dag_id),
        meta, none) := by
  rcases hst with h | h <;>
    simp [trigger_zip_pipeline, hzip, htok, h]

/-- **C1** (witness): a concrete running item with a ZIP file. -/
theorem trigger_zip_in_progress_idempotent_witness :
    latest_zip_file [⟨"scan.zip", "2024-01-01", "fid1"⟩] =
        some ⟨"scan.zip", "2024-01-01", "fid1"⟩ ∧
      truthy (some "tok") = true ∧
      (some "running" = some "queued" ∨ (some "running" : Option String) = some "running") ∧
      trigger_zip_pipeline "zdag" "Processed Dicom" "item1" "folder1"
          { airflow_dag_id := some "d1", airflow_job_id := some "job-1",
            analysis_status := some "running" }
          [⟨"scan.zip", "2024-01-01", "fid1"⟩] none none (some "tok") none "u1"
          (some "alice") "t0" (.error "unused") =
        (ZipResult.inProgress (some "job-1") "d1",
          { airflow_dag_id := some "d1", airflow_job_id := some "job-1",
            analysis_status := some "running" }, none) :=
  ⟨rfl, rfl, Or.inr rfl,
    trigger_zip_in_progress_idempotent "zdag" "Processed Dicom" "item1" "folder1"
      { airflow_dag_id := some "d1", airflow_job_id := some "job-1",
        analysis_status := some "running" }
      [⟨"scan.zip", "2024-01-01", "fid1"⟩] none none (some "tok") none "u1"
      (some "alice") "t0" (.error "unused") ⟨"scan.zip", "2024-01-01", "fid1"⟩
      rfl rfl (Or.inr rfl)⟩

/-- **C4**: whenever the trigger call raises, `trigger_zip_pipeline` leaves
the persisted item metadata exactly as it was (on *every* path), and on
the path where the trigger call was actually issued it returns the
structured `Failed` body carrying the reason — no uncaught fault. -/
theorem trigger_zip_failure_no_persist
    (zip_dag_id processed_item_name item_id folder_id : String) (meta : ItemMeta)
    (files : List FileInfo) (folder_id_param item_name_param girder_token : Option String)
    (existing_processed : Option String) (job_id : String) (login : Option String)
    (now : String) (e : String) :
    (trigger_zip_pipeline zip_dag_id processed_item_name item_id folder_id meta files
        folder_id_param item_name_param girder_token existing_processed job_id login now
        (.error e)).2.1 = meta ∧
      (∀ c, (trigger_zip_pipeline zip_dag_id processed_item_name item_id folder_id meta
            files folder_id_param item_name_param girder_token existing_processed job_id
            login now (.error e)).2.2 = some c →
        (trigger_zip_pipeline zip_dag_id processed_item_name item_id folder_id meta files
            folder_id_param item_name_param girder_token existing_processed job_id login
            now (.error e)).1 =
          ZipResult.failed ("Failed to trigger ZIP pipeline: " ++ e)) := by
  constructor
  · unfold trigger_zip_pipeline
    rcases h : latest_zip_file files with _ | zf
    · rfl
    · dsimp only
      split_ifs <;> rfl
  · intro c hc
    unfold trigger_zip_pipeline at hc ⊢
    rcases h : latest_zip_file files with _ | zf
    · rw [h] at hc
      exact Option.noConfusion hc
    · rw [h] at hc
      dsimp only at hc ⊢
      split_ifs at hc ⊢
      all_goals first | exact Option.noConfusion hc | rfl

/-- **C4** (witness): a concrete fresh item whose trigger call fails:
metadata is unchanged and the `Failed` body is returned. -/
theorem trigger_zip_failure_no_persist_witness :
    (trigger_zip_pipeline "zdag" "Processed Dicom" "item1" "folder1"
        { analysis_status := some "failed" } [⟨"scan.zip", "2024-01-01", "fid1"⟩]
        none none (some "tok") none "u1" (some "alice") "t0"
        (.error "boom")).2.1 = { analysis_status := some "failed" } ∧
      (trigger_zip_pipeline "zdag" "Processed Dicom" "item1" "folder1"
          { analysis_status := some "failed" } [⟨"scan.zip", "2024-01-01", "fid1"⟩]
          none none (some "tok") none "u1" (some "alice") "t0"
          (.error "boom")).1 =
        ZipResult.failed ("Failed to trigger ZIP pipeline: " ++ "boom") :=
  have h := trigger_zip_failure_no_persist "zdag" "Processed Dicom" "item1" "folder1"
    { analysis_status := some "failed" } [⟨"scan.zip", "2024-01-01", "fid1"⟩]
    none none (some "tok") none "u1" (some "alice") "t0" "boom"
  ⟨h.1, h.2 ⟨"zdag", "manual__girder_u1", "u1"⟩ rfl⟩

/-- **C10**: `analyze_item` performs no idempotency check: for *every*
persisted item state — including `analysis_status = queued/running` and
`processed_dicom_ready = true` — as soon as the item holds a `.zip` or
`.dcm` file and a Hugging Face token is available, the external trigger
call is issued with the freshly minted `job_id` (whether or not the call
then succeeds). -/
theorem analyze_item_always_triggers
    (analysis_dag_id item_id : String) (meta : ItemMeta) (files : List FileInfo)
    (hf_token_param env_hf : Option String) (job_id : String) (login : Option String)
    (now : String) (trigger : Except String DagRunResp)
    (hfiles : ∃ f ∈ files, str_endswith f.name ".zip" = true ∨
      str_endswith f.name ".dcm" = true)
    (htok : truthy (py_or_opt hf_token_param env_hf) = true) :
    (analyze_item analysis_dag_id item_id meta files hf_token_param env_hf job_id login
        now trigger).2.2 =
      some ⟨analysis_dag_id, "manual__analysis_" ++ job_id, job_id⟩ := by
  have hguard : ¬((∀ x ∈ files, str_endswith x.name ".zip" = false) ∧
      (∀ x ∈ files, str_endswith x.name ".dcm" = false)) := by
    rintro ⟨hzall, hdall⟩
    rcases hfiles with ⟨f, hfm, hz | hd⟩
    · rw [hzall f hfm] at hz
      exact Bool.noConfusion hz
    · rw [hdall f hfm] at hd
      exact Bool.noConfusion hd
  cases trigger with
  | ok dr => simp [analyze_item, hguard, htok]
  | error e => simp [analyze_item, hguard, htok]

/-- **C10** (witness): an item already `queued` with `processed_dicom_ready`
set still gets a fresh trigger call. -/
theorem analyze_item_always_triggers_witness :
    (∃ f ∈ [(⟨"s.dcm", "2024-01-01", "f2"⟩ : FileInfo)],
        str_endswith f.name ".zip" = true ∨ str_endswith f.name ".dcm" = true) ∧
      truthy (py_or_opt (some "hf") none) = true ∧
      (analyze_item "adag" "item1"
          { analysis_status := some "queued", processed_dicom_ready := true }
          [⟨"s.dcm", "2024-01-01", "f2"⟩] (some "hf") none "uuid2" (some "alice") "t0"
          (.ok {})).2.2 =
        some ⟨"adag", "manual__analysis_" ++ "uuid2", "uuid2"⟩ :=
  ⟨⟨⟨"s.dcm", "2024-01-01", "f2"⟩, List.mem_cons_self _ _, Or.inr rfl⟩, rfl,
    analyze_item_always_triggers "adag" "item1"
      { analysis_status := some "queued", processed_dicom_ready := true }
      [⟨"s.dcm", "2024-01-01", "f2"⟩] (some "hf") none "uuid2" (some "alice") "t0"
      (.ok {})
      ⟨⟨"s.dcm", "2024-01-01", "f2"⟩, List.mem_cons_self _ _, Or.inr rfl⟩ rfl⟩

/-- **C6** (counterexample): a run with 3 sub-tasks, 2 of them terminal, and
overall state `running`: the endpoint reports `percent = 66`
(`int((2/3)*100)` truncates), while the claimed `round(2/3*100)` is 67. -/
theorem zip_status_percent_truncates :
    (get_zip_job_status "zdag" "job-1"
        (.ok { dag_run_id := some "job-1", state := some "running" })
        (.ok [some "success", some "success", some "running"]) none).1 =
      ZipStatusResult.ok "job-1" "zdag" "running" none none (some "job-1") ⟨66, 2, 3⟩ ∧
      spec_percent_round 2 3 = 67 :=
  ⟨rfl, rfl⟩

/-- **C6** (amended): when the status query succeeds, the progress block of
`get_zip_job_status` reports `total` = the number of sub-tasks, `completed`
= the number of sub-tasks in a terminal state (`success`, `failed`,
`skipped`, `upstream_failed`), and `percent` = the `int()` truncation of the
float64 product `(completed / total) * 100` (not `round(...)`) when
`total > 0` and 0 when `total = 0`; the percent is forced to 100 whenever
the overall run state is `success` (including when the sub-task query
fails). -/
theorem zip_status_progress_floor
    (zip_dag_id job_id : String) (resp : DagRunResp)
    (ts : List (Option String)) (source_item : Option ItemMeta) :
    (get_zip_job_status zip_dag_id job_id (.ok resp) (.ok ts) source_item).1 =
      ZipStatusResult.ok job_id zip_dag_id (resp.state.getD "unknown")
        resp.start_date resp.end_date resp.dag_run_id
        ⟨if resp.state.getD "unknown" = "success" then 100
          else if ts.length ≠ 0 then pyFloatPercent (spec_terminal_count ts) ts.length
          else 0,
          spec_terminal_count ts, ts.length⟩ ∧
      (get_zip_job_status zip_dag_id job_id (.ok resp) (.error ()) source_item).1 =
        ZipStatusResult.ok job_id zip_dag_id (resp.state.getD "unknown")
          resp.start_date resp.end_date resp.dag_run_id
          ⟨if resp.state.getD "unknown" = "success" then 100 else 0, 0, 0⟩ := by
  have hcount : count_done ts = spec_terminal_count ts := by
    unfold count_done spec_terminal_count
    congr 1
    apply List.filter_congr
    intro t _
    cases t with
    | none => simp
    | some s2 => simp [done_states]
  constructor
  · unfold get_zip_job_status compute_progress
    dsimp only
    rw [hcount]
  · unfold get_zip_job_status compute_progress
    rfl

/-- **C6** (witness): 29 of 50 sub-tasks terminal, overall state `running`:
the endpoint reports 57 percent — the float64 truncation the program
performs (`int((29 / 50) * 100) = 57`), one below the exact
`⌊29 · 100 / 50⌋ = 58`. -/
theorem zip_status_progress_floor_witness :
    (get_zip_job_status "z1" "j1" (.ok { state := some "running" })
        (.ok (List.replicate 29 (some "success") ++ List.replicate 21 (some "running")))
        none).1 =
      ZipStatusResult.ok "j1" "z1" "running" none none none ⟨57, 29, 50⟩ ∧
      pyFloatPercent 29 50 = 57 :=
  ⟨(zip_status_progress_floor "z1" "j1" { state := some "running" }
      (List.replicate 29 (some "success") ++ List.replicate 21 (some "running")) none).1,
    rfl⟩

/-- **C7** (counterexample): `get_item_pipeline_status` on an item with a
persisted run whose fetched state is `success` updates `analysis_status`
but does *not* set `processed_dicom_ready` — refuting the claim that the
reconciler sets `processed_ready = true` on success. -/
theorem item_status_success_no_processed_flag :
    ((get_item_pipeline_status "item1"
        { airflow_dag_id := some "d1", airflow_job_id := some "job-1",
          analysis_status := some "running" }
        (.ok { state := some "success" })).2).analysis_status = some "success" ∧
      ((get_item_pipeline_status "item1"
          { airflow_dag_id := some "d1", airflow_job_id := some "job-1",
            analysis_status := some "running" }
          (.ok { state := some "success" })).2).processed_dicom_ready = false :=
  ⟨rfl, rfl⟩

/-- **C7** (amended): when `get_item_pipeline_status` runs on an item with a
persisted run and the remote query succeeds, the resulting metadata is
exactly the old record with only `analysis_status` overwritten by the
fetched state — every other persisted field, *including*
`processed_dicom_ready`, is unchanged (the `processed_ready`-on-success
write happens only in `get_zip_job_status`). -/
theorem item_status_overwrites_only_state
    (item_id : String) (meta : ItemMeta) (resp : DagRunResp)
    (hd : truthy meta.airflow_dag_id = true) (hr : truthy meta.airflow_job_id = true) :
    (get_item_pipeline_status item_id meta (.ok resp)).2 =
      { meta with analysis_status := some (resp.state.getD "unknown") } := by
  simp [get_item_pipeline_status, hd, hr]

/-- **C7** (witness): the frame property at a concrete queued item whose
fetched state is `success`; the processed flag stays `false`. -/
theorem item_status_overwrites_only_state_witness :
    truthy (some "d1") = true ∧ truthy (some "job-1") = true ∧
      (get_item_pipeline_status "item1"
          { airflow_dag_id := some "d1", airflow_job_id := some "job-1",
            analysis_status := some "queued", processed_dicom_ready := false }
          (.ok { state := some "success" })).2 =
        { airflow_dag_id := some "d1", airflow_job_id := some "job-1",
          analysis_status := some "success", processed_dicom_ready := false } :=
  ⟨rfl, rfl,
    item_status_overwrites_only_state "item1"
      { airflow_dag_id := some "d1", airflow_job_id := some "job-1",
        analysis_status := some "queued", processed_dicom_ready := false }
      { state := some "success" } rfl rfl⟩

/-- **C8** (counterexample): a successful status response that carries no
`state` field makes `get_zip_job_status` write `analysis_status = unknown`
over a previously persisted `running` — the code has no guard preventing
`unknown` from overwriting a more specific state. -/
theorem zip_status_unknown_overwrites_running :
    ((get_zip_job_status "zdag" "job-1" (.ok { dag_run_id := some "job-1" }) (.ok [])
        (some { airflow_job_id := some "job-1", analysis_status := some "running" })).2) =
      some { airflow_job_id := some "job-1", analysis_status := some "unknown" } :=
  rfl

/-- **C8** (amended): a *failed* status query never writes: both reconciler
endpoints leave the item metadata untouched when the remote query raises,
so `unknown` can only be written by a *successful* response, and the value
written is always exactly the `state` field of the response (defaulting to
`unknown` only when that field is absent). -/
theorem reconcile_unknown_only_from_response
    (zip_dag_id job_id item_id e : String) (tasks : Except Unit (List (Option String)))
    (meta : ItemMeta) (resp : DagRunResp) :
    ((get_zip_job_status zip_dag_id job_id (.error e) tasks (some meta)).2 = some meta) ∧
      ((get_item_pipeline_status item_id meta (.error e)).2 = meta) ∧
      (∀ s, resp.state = some s →
        (get_zip_job_status zip_dag_id job_id (.ok resp) tasks (some meta)).2 =
          some { meta with
            analysis_status := some s,
            processed_dicom_ready :=
              if s = "success" then true else meta.processed_dicom_ready }) := by
  refine ⟨rfl, ?_, ?_⟩
  · unfold get_item_pipeline_status
    split_ifs <;> rfl
  · intro s hs
    simp [get_zip_job_status, hs]

/-- **C8** (witness): concretely, a failed query leaves a `running` item
untouched, and a successful `running` response writes `running` (not
`unknown`). -/
theorem reconcile_unknown_only_from_response_witness :
    ((get_zip_job_status "z1" "j1" (.error "boom") (.ok [])
        (some { analysis_status := some "running" })).2 =
      some { analysis_status := some "running" }) ∧
      ((get_item_pipeline_status "i1" { analysis_status := some "running" }
          (.error "boom")).2 = { analysis_status := some "running" }) ∧
      ((get_zip_job_status "z1" "j1" (.ok { state := some "running" }) (.ok [])
          (some { analysis_status := some "running" })).2 =
        some { analysis_status := some "running", processed_dicom_ready := false }) :=
  have h := reconcile_unknown_only_from_response "z1" "j1" "i1" "boom" (.ok [])
    { analysis_status := some "running" } { state := some "running" }
  ⟨h.1, h.2.1, by simpa using h.2.2 "running" rfl⟩

end MedGemma
